import Mathlib

/-!
Verification of the node contract model of `core/dbt/contracts/graph/parsed.py`.

Raw configuration data (decoded JSON/YAML mappings) is embedded as the
inductive `RawVal`; Python `dict`s become association lists with unique keys,
and `dict.update` becomes `rupdate` (overwrite existing key in place, append
new keys in order).
-/

namespace DbtParsed

/-- A raw JSON/YAML-like value, as passed to `from_dict`/returned by `to_dict`. -/
inductive RawVal where
  | vNull : RawVal
  | vBool (b : Bool) : RawVal
  | vInt (n : Int) : RawVal
  | vStr (s : String) : RawVal
  | vList (xs : List RawVal) : RawVal
  | vMap (entries : List (String × RawVal)) : RawVal

/-- A raw mapping: the payload of a Python `dict` with string keys. -/
abbrev RawMap := List (String × RawVal)

/-- Python `d[k]` / `k in d`: first binding of `k` wins. -/
def rlookup (m : RawMap) (k : String) : Option RawVal :=
  match m with
  | [] => none
  | (k', v) :: rest => if k' = k then some v else rlookup rest k

/-- Python `d[k] = v` on an insertion-ordered dict: overwrite the binding in
place when the key is present, else append it. -/
def rinsert (m : RawMap) (k : String) (v : RawVal) : RawMap :=
  if (m.map Prod.fst).contains k then
    m.map (fun p => if p.1 = k then (k, v) else p)
  else
    m ++ [(k, v)]

/-- Python `d.update(overrides)`. -/
def rupdate (m overrides : RawMap) : RawMap :=
  overrides.foldl (fun acc p => rinsert acc p.1 p.2) m

/-- Parse a JSON boolean (schema type `boolean`). -/
def parseBool : RawVal → Except String Bool
  | .vBool b => .ok b
  | _ => .error "expected a boolean"

/-- Parse a JSON string (schema type `string`). -/
def parseStr : RawVal → Except String String
  | .vStr s => .ok s
  | _ => .error "expected a string"

/-- Parse a JSON object whose values are unconstrained (`Dict[str, Any]`). -/
def parseMapAny : RawVal → Except String RawMap
  | .vMap m => .ok m
  | _ => .error "expected an object"

/-- Parse an `Optional[str]` field value (`anyOf string, null`). -/
def parseOptStr : RawVal → Except String (Option String)
  | .vStr s => .ok (some s)
  | .vNull => .ok none
  | _ => .error "expected a string or null"

/-- Parse a declared field with a dataclass default: an absent key yields the
default, a present key must parse. -/
def parseField (m : RawMap) (key : String) (p : RawVal → Except String α)
    (dflt : α) : Except String α :=
  match rlookup m key with
  | none => .ok dflt
  | some v => p v

/-- Parse a declared field with no default: an absent key is a validation
error (jsonschema `required`). -/
def requiredField (m : RawMap) (key : String)
    (p : RawVal → Except String α) : Except String α :=
  match rlookup m key with
  | none => .error (key ++ " is a required property")
  | some v => p v

/-- The `Hook` record (source lines 33-37): a pre/post SQL hook. -/
structure Hook where
  sql : String
  transaction : Bool := true
  index : Option Int := none
deriving Repr, DecidableEq

namespace Hook

/-- Modelled from the spec: hologram's base `JsonSchemaMixin.from_dict` for the
non-extensible `Hook` record parses the declared fields (`sql` required,
`transaction` and `index` defaulted, `index` nullable); keys outside the
declared schema are ignored per JSON Schema's default `additionalProperties`
behavior. -/
def from_val : RawVal → Except String Hook
  | .vMap m => do
    let sql ← requiredField m "sql" parseStr
    let transaction ← parseField m "transaction" parseBool true
    let index ← parseField m "index"
      (fun v => match v with
        | .vInt n => .ok (some n)
        | .vNull => .ok none
        | _ => .error "expected an integer or null") none
    Except.ok ⟨sql, transaction, index⟩
  | _ => .error "expected a hook object"

/-- Modelled from the spec: hologram's base `JsonSchemaMixin.to_dict` for a
`Hook` emits the declared fields; with `omit_none` a `None`-valued `index` is
omitted from the output, otherwise it is emitted as JSON null. -/
def to_val (omit_none : Bool) (h : Hook) : RawVal :=
  .vMap ([("sql", .vStr h.sql), ("transaction", .vBool h.transaction)] ++
    (match h.index with
     | some i => [("index", .vInt i)]
     | none => if omit_none then [] else [("index", .vNull)]))

end Hook

/-- Parse each element of a JSON array as a `Hook`. -/
def parseHookList : List RawVal → Except String (List Hook)
  | [] => .ok []
  | v :: rest => do
    let h ← Hook.from_val v
    let hs ← parseHookList rest
    .ok (h :: hs)

/-- Parse a `List[Hook]` field value. -/
def parseHooks : RawVal → Except String (List Hook)
  | .vList xs => parseHookList xs
  | _ => .error "expected a list of hooks"

/-- Parse each element of a JSON array as a string. -/
def parseStrList : List RawVal → Except String (List String)
  | [] => .ok []
  | v :: rest => do
    let s ← parseStr v
    let ss ← parseStrList rest
    .ok (s :: ss)

/-- The value of the `tags: Union[List[str], str]` field of `NodeConfig`
(source line 62). -/
inductive Tags where
  | strs (xs : List String)
  | str (s : String)
deriving Repr, DecidableEq

/-- Parse a `Union[List[str], str]` value. -/
def Tags.from_val : RawVal → Except String Tags
  | .vList xs => do
    let ss ← parseStrList xs
    Except.ok (Tags.strs ss)
  | .vStr s => .ok (.str s)
  | _ => .error "expected a list of strings or a string"

/-- Serialize a `Union[List[str], str]` value. -/
def Tags.to_val : Tags → RawVal
  | .strs xs => .vList (xs.map RawVal.vStr)
  | .str s => .vStr s

/-- The `NodeConfig` record (source lines 52-63): the extensible per-node configuration.
Field defaults mirror the dataclass defaults; `_extra` is the opaque side-map
of unrecognized keys captured by `from_dict`. -/
structure NodeConfig where
  enabled : Bool := true
  materialized : String := "view"
  persist_docs : RawMap := []
  post_hook : List Hook := []
  pre_hook : List Hook := []
  vars : RawMap := []
  quoting : RawMap := []
  column_types : RawMap := []
  tags : Tags := .strs []
  _extra : RawMap := []

namespace NodeConfig

/-- Source lines 88-90 (`field_mapping`): serialized-name remapping
for the two hook fields. -/
def field_mapping : List (String × String) :=
  [("post_hook", "post-hook"), ("pre_hook", "pre-hook")]

/-- Modelled from the spec: hologram's base `ExtensibleJsonSchemaMixin.to_dict`
emits the declared public fields under their `field_mapping` names, in field
declaration order; the private side-map `_extra` is not a declared schema
field and is not emitted here. No declared `NodeConfig` field is `None`, so
`omit_none` only affects nested hook serialization. -/
def base_to_dict (omit_none : Bool) (c : NodeConfig) : RawMap :=
  [("enabled", .vBool c.enabled),
   ("materialized", .vStr c.materialized),
   ("persist_docs", .vMap c.persist_docs),
   ("post-hook", .vList (c.post_hook.map (Hook.to_val omit_none))),
   ("pre-hook", .vList (c.pre_hook.map (Hook.to_val omit_none))),
   ("vars", .vMap c.vars),
   ("quoting", .vMap c.quoting),
   ("column_types", .vMap c.column_types),
   ("tags", c.tags.to_val)]

/-- Source lines 78-81 (`NodeConfig.to_dict`): base serialization, then
`data.update(self._extra)`. -/
def to_dict (c : NodeConfig) (omit_none : Bool := true) : RawMap :=
  rupdate (base_to_dict omit_none c) c._extra

/-- Modelled from the spec: hologram's base
`ExtensibleJsonSchemaMixin.from_dict` validates and converts the declared
fields only (absent keys take their dataclass defaults); unknown keys never
cause failure and are not captured by the base class. -/
def base_from_dict (m : RawMap) : Except String NodeConfig := do
  let enabled ← parseField m "enabled" parseBool true
  let materialized ← parseField m "materialized" parseStr "view"
  let persist_docs ← parseField m "persist_docs" parseMapAny []
  let post_hook ← parseField m "post-hook" parseHooks []
  let pre_hook ← parseField m "pre-hook" parseHooks []
  let vars ← parseField m "vars" parseMapAny []
  let quoting ← parseField m "quoting" parseMapAny []
  let column_types ← parseField m "column_types" parseMapAny []
  let tags ← parseField m "tags" Tags.from_val (.strs [])
  Except.ok ⟨enabled, materialized, persist_docs, post_hook, pre_hook,
    vars, quoting, column_types, tags, []⟩

/-- Source lines 69-76 (`NodeConfig.from_dict`): parse via the base class,
compute `keys = self.to_dict(validate=False, omit_none=False)`, then copy
every input pair whose key is not among `keys` into `self._extra`. On a
Python dict (unique keys, insertion order) the capture loop is this filter. -/
def from_dict (m : RawMap) : Except String NodeConfig := do
  let self ← base_from_dict m
  Except.ok { self with _extra := (m.filter (fun p =>
    !(((to_dict self false).map Prod.fst).contains p.1))) }

/-- Source lines 83-86 (`NodeConfig.replace`): serialize with
`omit_none=False`, apply the overrides with `dict.update`, re-parse. -/
def replace (c : NodeConfig) (overrides : RawMap) : Except String NodeConfig :=
  from_dict (rupdate (to_dict c false) overrides)

end NodeConfig

/-- The serialized names of the nine declared `NodeConfig` fields, in
dataclass order with `field_mapping` applied: the value of
`keys = self.to_dict(validate=False, omit_none=False)` on a freshly parsed
record. -/
def nodeConfigKeys : List String :=
  ["enabled", "materialized", "persist_docs", "post-hook", "pre-hook",
   "vars", "quoting", "column_types", "tags"]

/-- The `CheckStrategy` enum (source lines 25-26): a one-member string enum whose only
value is `'check'`. -/
inductive CheckStrategy where
  | check
deriving Repr, DecidableEq

/-- The `check_cols: Union[All, List[str]]` field value (source line 291): either the
one-member `All` enum (source lines 29-30) or a list of column names. -/
inductive CheckCols where
  | all
  | cols (xs : List String)
deriving Repr, DecidableEq

/-- The `_SnapshotConfig` record (source lines 240-256): the common mandatory snapshot
fields on top of `NodeConfig`. -/
structure _SnapshotConfig extends NodeConfig where
  unique_key : String
  target_schema : String
  target_database : Option String := none

/-- The `CheckSnapshotConfig` record (source lines 281-299): the check-strategy variant,
adding a required `strategy: CheckStrategy` and `check_cols`. -/
structure CheckSnapshotConfig extends _SnapshotConfig where
  strategy : CheckStrategy
  check_cols : CheckCols

namespace CheckSnapshotConfig

/-- Parse the `strategy: CheckStrategy` field value: the enum pattern accepts
only the literal string `'check'`. -/
def parseCheckStrategy : RawVal → Except String CheckStrategy
  | .vStr "check" => .ok CheckStrategy.check
  | _ => .error "strategy must be the string check"

/-- Parse a `Union[All, List[str]]` value. -/
def parseCheckCols : RawVal → Except String CheckCols
  | .vStr "all" => .ok CheckCols.all
  | .vList xs => do
    let ss ← parseStrList xs
    Except.ok (CheckCols.cols ss)
  | _ => .error "check_cols must be all or a list of strings"

/-- Modelled from the spec: hologram's base `from_dict` for the check variant
validates all declared fields; `unique_key`, `target_schema`, `strategy` and
`check_cols` have no dataclass default and so are required, `target_database`
is optional and nullable. -/
def base_from_dict (m : RawMap) : Except String CheckSnapshotConfig := do
  let nc ← NodeConfig.base_from_dict m
  let unique_key ← requiredField m "unique_key" parseStr
  let target_schema ← requiredField m "target_schema" parseStr
  let target_database ← parseField m "target_database" parseOptStr none
  let strategy ← requiredField m "strategy" parseCheckStrategy
  let check_cols ← requiredField m "check_cols" parseCheckCols
  Except.ok ⟨⟨nc, unique_key, target_schema, target_database⟩,
    strategy, check_cols⟩

/-- Modelled from the spec: the base serializer for the check variant emits
the declared fields in dataclass order (the inherited `NodeConfig` fields
first, then the `_SnapshotConfig` fields, then the variant fields). -/
def base_to_dict (omit_none : Bool) (c : CheckSnapshotConfig) : RawMap :=
  NodeConfig.base_to_dict omit_none c.toNodeConfig ++
  [("unique_key", .vStr c.unique_key),
   ("target_schema", .vStr c.target_schema)] ++
  (match c.target_database with
   | some s => [("target_database", .vStr s)]
   | none => if omit_none then [] else [("target_database", .vNull)]) ++
  [("strategy", .vStr "check"),
   ("check_cols", match c.check_cols with
     | .all => .vStr "all"
     | .cols xs => .vList (xs.map RawVal.vStr))]

/-- Source lines 78-81 as inherited by `CheckSnapshotConfig`
(`NodeConfig.to_dict`): base serialization, then
`data.update(self._extra)`. -/
def to_dict (c : CheckSnapshotConfig) (omit_none : Bool := true) : RawMap :=
  rupdate (base_to_dict omit_none c) c._extra

/-- Source lines 69-76 as inherited by `CheckSnapshotConfig`
(`NodeConfig.from_dict`): parse via the base class, then capture every input
pair whose key is not among the serialized declared keys into `_extra`. -/
def from_dict (m : RawMap) : Except String CheckSnapshotConfig := do
  let self ← base_from_dict m
  Except.ok { self with _extra := (m.filter (fun p =>
    !(((to_dict self false).map Prod.fst).contains p.1))) }

end CheckSnapshotConfig

/-- Source lines 313-333 (`_create_if_else_chain`). The Python loop repeatedly
`pop()`s the LAST pair of `criteria` and writes an `if`/`then`/`else` triple
into the current innermost `else` slot, so the last pair of `criteria` becomes
the outermost `if`; the innermost `else` is updated with the default schema.
Recursing over the reversed list builds the same nested document. -/
def _create_if_else_chain (key : String) (criteria : List (String × RawVal))
    (dflt : RawVal) : RawVal :=
  go criteria.reverse
where
  /-- Build the chain from the outermost criterion inward. -/
  go : List (String × RawVal) → RawVal
    | [] => dflt
    | (if_clause, then_clause) :: rest =>
      .vMap [("if", .vMap [("properties",
                .vMap [(key, .vMap [("enum", .vList [.vStr if_clause])])])]),
             ("then", then_clause),
             ("else", go rest)]

/-- The `config` schema entry installed by `ParsedSnapshotNode.json_schema`
(source lines 345-362): `_create_if_else_chain` applied to `'strategy'`, the
criteria list `[(str(CheckStrategy.Check), CheckSnapshotConfig),
(str(TimestampStrategy.Timestamp), TimestampSnapshotConfig)]` and the default
`GenericSnapshotConfig`. The hologram-generated `json_schema()` documents of
the three variant classes are taken as parameters. -/
def snapshot_config_schema (checkSchema timestampSchema genericSchema : RawVal) :
    RawVal :=
  _create_if_else_chain "strategy"
    [("check", checkSchema), ("timestamp", timestampSchema)] genericSchema

/-- The `ColumnInfo` record (source lines 93-96). -/
structure ColumnInfo where
  name : String
  description : String := ""
deriving Repr, DecidableEq

/-- The `Docref` record (source lines 103-107). -/
structure Docref where
  documentation_name : String
  documentation_package : String
  column_name : Option String := none
deriving Repr, DecidableEq

/-- The `DependsOn` record (source lines 120-123). -/
structure DependsOn where
  nodes : List String := []
  macros : List String := []
deriving Repr, DecidableEq

/-- The `ParsedNode` shape (source lines 167-194), flattening `ParsedNodeMandatory`
(the `HasUniqueID`/`HasFqn`/`HasRelationMetadata` facets plus `alias`) and
`ParsedNodeDefaults`. The six leading fields are modelled from the spec:
`UnparsedNode` (imported from `dbt.contracts.graph.unparsed`, not under
`src/`) contributes the name, path and raw-SQL fields of an unparsed node. -/
structure ParsedNode where
  name : String
  package_name : String
  root_path : String
  path : String
  original_file_path : String
  raw_sql : String
  unique_id : String
  fqn : List String
  database : String
  schema : String
  «alias» : String
  config : NodeConfig := {}
  tags : List String := []
  refs : List (List String) := []
  sources : List (List RawVal) := []
  depends_on : DependsOn := {}
  docrefs : List Docref := []
  description : String := ""
  columns : List (String × ColumnInfo) := []
  patch_path : Option String := none
  build_path : Option String := none

/-- The `ParsedNodePatch` record (source lines 368-374). -/
structure ParsedNodePatch where
  name : String
  description : String
  original_file_path : String
  columns : List (String × ColumnInfo)
  docrefs : List Docref

/-- Source lines 149-158 (`ParsedNodeMixins.patch`): overwrite exactly
`patch_path`, `description`, `columns` and `docrefs` from the patch record.
(The strict-mode re-validation side effect raises on an invalid node but does
not alter any field.) -/
def ParsedNode.patch (node : ParsedNode) (p : ParsedNodePatch) : ParsedNode :=
  { node with
    patch_path := some p.original_file_path
    description := p.description
    columns := p.columns
    docrefs := p.docrefs }

/-- Modelled from the spec: `FreshnessThreshold` (imported from
`dbt.contracts.graph.unparsed`, not under `src/`) holds the optional warn /
error thresholds of a source's freshness policy. -/
structure FreshnessThreshold where
  warn_after : Option Int := none
  error_after : Option Int := none
deriving Repr, DecidableEq

/-- Modelled from the spec: Python `bool(freshness)` is true when "a
freshness threshold is set", i.e. some threshold field is populated. -/
def FreshnessThreshold.isSet (f : FreshnessThreshold) : Bool :=
  f.warn_after.isSome || f.error_after.isSome

/-- The `ParsedSourceDefinition` record (source lines 408-449). The `quoting` field's
`Quoting` shape (from `unparsed.py`) is irrelevant to the claims and kept as
a raw mapping. -/
structure ParsedSourceDefinition where
  package_name : String
  root_path : String
  path : String
  original_file_path : String
  unique_id : String
  database : String
  schema : String
  fqn : List String
  name : String
  source_name : String
  source_description : String
  loader : String
  identifier : String
  quoting : RawMap := []
  loaded_at_field : Option String := none
  freshness : FreshnessThreshold := {}
  docrefs : List Docref := []
  description : String := ""
  columns : List (String × ColumnInfo) := []

namespace ParsedSourceDefinition

/-- The `refs` property (source lines 435-437). -/
def refs (_ : ParsedSourceDefinition) : List (List String) := []

/-- The `sources` property (source lines 439-441). -/
def sources (_ : ParsedSourceDefinition) : List (List RawVal) := []

/-- The `tags` property (source lines 443-445). -/
def tags (_ : ParsedSourceDefinition) : List String := []

/-- The `has_freshness` property (source lines 447-449):
`bool(self.freshness) and self.loaded_at_field is not None`. -/
def has_freshness (s : ParsedSourceDefinition) : Bool :=
  s.freshness.isSet && s.loaded_at_field.isSome

end ParsedSourceDefinition

/-- The concrete node-variant classes appearing as values of `PARSED_TYPES`
(source lines 452-463). -/
inductive NodeVariantCtor where
  | ParsedAnalysisNode
  | ParsedDocumentation
  | ParsedMacroNode
  | ParsedModelNode
  | ParsedHookNode
  | ParsedRPCNode
  | ParsedSeedNode
  | ParsedSnapshotNode
  | ParsedSourceDefinitionNode
  | ParsedTestNode
deriving Repr, DecidableEq

/-- The `PARSED_TYPES` table (source lines 452-463): the fixed resource-type dispatch
table. The `NodeType` members (from `dbt.node_types`, not under `src/`) are
modelled from the spec by their member names. -/
def PARSED_TYPES : List (String × NodeVariantCtor) :=
  [("Analysis", .ParsedAnalysisNode),
   ("Documentation", .ParsedDocumentation),
   ("Macro", .ParsedMacroNode),
   ("Model", .ParsedModelNode),
   ("Operation", .ParsedHookNode),
   ("RPCCall", .ParsedRPCNode),
   ("Seed", .ParsedSeedNode),
   ("Snapshot", .ParsedSnapshotNode),
   ("Source", .ParsedSourceDefinitionNode),
   ("Test", .ParsedTestNode)]

/-- The `UnknownNodeTypeError` error (per the spec's error surface): raised on a
resource-type tag absent from the dispatch table. -/
inductive UnknownNodeTypeError where
  | unknownNodeType (tag : String)
deriving Repr, DecidableEq

/-- Modelled from the spec: dispatch on a resource-type tag looks the tag up
in `PARSED_TYPES` and fails with `UnknownNodeTypeError` on an unknown tag
(the lookup site itself is a caller outside `src/`). -/
def dispatch_parsed_type (tag : String) :
    Except UnknownNodeTypeError NodeVariantCtor :=
  go PARSED_TYPES
where
  /-- First-match lookup over the table. -/
  go : List (String × NodeVariantCtor) → Except UnknownNodeTypeError NodeVariantCtor
    | [] => .error (.unknownNodeType tag)
    | (t, ctor) :: rest => if t = tag then .ok ctor else go rest

/-- Source lines 40-46 (`insensitive_patterns`): build the anchored
alternation regex whose per-character classes accept both cases, e.g.
`insensitive_patterns('warn', 'error') =
'^([Ww][Aa][Rr][Nn]|[Ee][Rr][Rr][Oo][Rr])$'`. -/
def insensitive_patterns (patterns : List String) : String :=
  let lowercased := patterns.map (fun pattern =>
    String.join (pattern.data.map (fun s =>
      "[" ++ s.toUpper.toString ++ s.toLower.toString ++ "]")))
  "^(" ++ String.intercalate "|" lowercased ++ ")$"

/-- The semantics of one generated alternative of `insensitive_patterns`:
each character of the candidate must fall in the two-character class
`[Uu]` built from the corresponding pattern character. -/
def matches_insensitive (cand : List Char) (pattern : List Char) : Bool :=
  match cand, pattern with
  | [], [] => true
  | c :: cs, p :: ps => (c = p.toUpper || c = p.toLower) && matches_insensitive cs ps
  | _, _ => false

/-- The semantics of the anchored regex `Severity =
NewPatternType('Severity', insensitive_patterns('warn', 'error'))` (source
line 49): a full match of either alternative. -/
def severity_accepted (s : String) : Bool :=
  matches_insensitive s.data "warn".data || matches_insensitive s.data "error".data

/-- Modelled from the spec: hologram's `NewPatternType` creates a
pattern-validated string subtype; a value matching the pattern is stored as
the string itself, a non-matching value is rejected. -/
def Severity.store (s : String) : Option String :=
  if severity_accepted s then some s else none

/-- Lowercasing a string character-wise (basic-latin case folding, the
case-insensitivity relevant to `insensitive_patterns`). -/
def lowerStr (s : String) : String :=
  ⟨s.data.map Char.toLower⟩

end DbtParsed
namespace DbtParsed
open RawVal

theorem rlookup_append (m₁ m₂ : RawMap) (k : String) :
    rlookup (m₁ ++ m₂) k = ((rlookup m₁ k).or (rlookup m₂ k)) := by
  induction m₁ with
  | nil => simp [rlookup]
  | cons p rest ih =>
    obtain ⟨k', v⟩ := p
    by_cases h : k' = k <;> simp [rlookup, h, ih]

theorem rlookup_eq_none_iff (m : RawMap) (k : String) :
    rlookup m k = none ↔ k ∉ m.map Prod.fst := by
  induction m with
  | nil => simp [rlookup]
  | cons p rest ih =>
    obtain ⟨k', v⟩ := p
    rw [rlookup]
    by_cases h : k' = k
    · subst h
      simp
    · rw [if_neg h, ih]
      simp [List.mem_cons, Ne.symm h]

theorem rinsert_not_mem (m : RawMap) (k : String) (v : RawVal)
    (h : k ∉ m.map Prod.fst) :
    rinsert m k v = m ++ [(k, v)] := by
  rw [rinsert, if_neg]
  simpa using h

theorem rupdate_append (m ov : RawMap)
    (hd : ∀ p ∈ ov, p.1 ∉ m.map Prod.fst)
    (hnd : (ov.map Prod.fst).Nodup) :
    rupdate m ov = m ++ ov := by
  induction ov generalizing m with
  | nil => simp [rupdate]
  | cons p rest ih =>
    obtain ⟨k, v⟩ := p
    have h1 : k ∉ m.map Prod.fst := hd (k, v) (by simp)
    have hnd' : k ∉ rest.map Prod.fst ∧ (rest.map Prod.fst).Nodup := by
      simpa [List.nodup_cons] using hnd
    have step : rupdate m ((k, v) :: rest) = rupdate (m ++ [(k, v)]) rest := by
      simp [rupdate, rinsert_not_mem m k v h1]
    rw [step, ih]
    · simp
    · intro q hq
      simp only [List.map_append, List.mem_append]
      push_neg
      constructor
      · exact hd q (by simp [hq])
      · simp only [List.map_cons, List.map_nil, List.mem_singleton]
        intro he
        exact hnd'.1 (he ▸ (List.mem_map_of_mem Prod.fst hq))
    · exact hnd'.2

theorem rlookup_map_overwrite_self (m : RawMap) (k : String) (v : RawVal)
    (hc : k ∈ m.map Prod.fst) :
    rlookup (m.map (fun p => if p.1 = k then (k, v) else p)) k = some v := by
  induction m with
  | nil => simp at hc
  | cons p rest ih =>
    obtain ⟨k1, v1⟩ := p
    simp only [List.map_cons, List.mem_cons] at hc
    simp only [List.map_cons]
    by_cases h1 : k1 = k
    · rw [if_pos h1, rlookup, if_pos rfl]
    · rw [if_neg h1, rlookup, if_neg h1]
      exact ih (hc.resolve_left (fun he => h1 he.symm))

theorem rlookup_map_overwrite (m : RawMap) (k k' : String) (v : RawVal)
    (h : k' ≠ k) :
    rlookup (m.map (fun p => if p.1 = k then (k, v) else p)) k'
      = rlookup m k' := by
  have h' : ¬(k = k') := fun he => h he.symm
  induction m with
  | nil => rfl
  | cons p rest ih =>
    obtain ⟨k1, v1⟩ := p
    simp only [List.map_cons]
    by_cases h1 : k1 = k
    · rw [if_pos h1, rlookup, if_neg h', rlookup,
        if_neg (fun he => h' (h1.symm.trans he)), ih]
    · rw [if_neg h1, rlookup, rlookup]
      by_cases h2 : k1 = k' <;> simp [h2, ih]

theorem rlookup_rinsert (m : RawMap) (k : String) (v : RawVal) :
    rlookup (rinsert m k v) k = some v := by
  by_cases hc : k ∈ m.map Prod.fst
  · rw [rinsert, if_pos (by simpa using hc)]
    exact rlookup_map_overwrite_self m k v hc
  · rw [rinsert, if_neg (by simpa using hc), rlookup_append,
      (rlookup_eq_none_iff m k).mpr hc]
    simp [rlookup]

theorem rlookup_rinsert_ne (m : RawMap) (k k' : String) (v : RawVal)
    (h : k' ≠ k) :
    rlookup (rinsert m k v) k' = rlookup m k' := by
  have h' : ¬(k = k') := fun he => h he.symm
  rw [rinsert]
  split
  · exact rlookup_map_overwrite m k k' v h
  · rw [rlookup_append, show rlookup [(k, v)] k' = none from by
      rw [rlookup, if_neg h']
      rfl]
    cases rlookup m k' <;> rfl

theorem rlookup_rupdate_not_mem (ov m : RawMap) (k : String)
    (h : k ∉ ov.map Prod.fst) :
    rlookup (rupdate m ov) k = rlookup m k := by
  induction ov generalizing m with
  | nil => rfl
  | cons p rest ih =>
    obtain ⟨k1, v1⟩ := p
    simp only [List.map_cons, List.mem_cons, not_or] at h
    rw [show rupdate m ((k1, v1) :: rest) = rupdate (rinsert m k1 v1) rest
      from rfl]
    rw [ih (rinsert m k1 v1) h.2]
    exact rlookup_rinsert_ne m k1 k v1 h.1

theorem rlookup_rupdate_mem (ov m : RawMap) (k : String) (v : RawVal)
    (hnd : (ov.map Prod.fst).Nodup)
    (h : rlookup ov k = some v) :
    rlookup (rupdate m ov) k = some v := by
  induction ov generalizing m with
  | nil => simp [rlookup] at h
  | cons p rest ih =>
    obtain ⟨k1, v1⟩ := p
    have hnd' : k1 ∉ rest.map Prod.fst ∧ (rest.map Prod.fst).Nodup := by
      simpa [List.nodup_cons] using hnd
    rw [show rupdate m ((k1, v1) :: rest) = rupdate (rinsert m k1 v1) rest
      from rfl]
    by_cases h1 : k1 = k
    · subst h1
      rw [rlookup, if_pos rfl] at h
      have hv : v1 = v := by injection h
      subst hv
      rw [rlookup_rupdate_not_mem rest (rinsert m k1 v1) k1 hnd'.1]
      exact rlookup_rinsert m k1 v1
    · rw [rlookup, if_neg h1] at h
      exact ih (rinsert m k1 v1) hnd'.2 h

theorem base_to_dict_keys (om : Bool) (c : NodeConfig) :
    (NodeConfig.base_to_dict om c).map Prod.fst = nodeConfigKeys := rfl

theorem hook_roundtrip (om : Bool) (h : Hook) :
    Hook.from_val (Hook.to_val om h) = .ok h := by
  obtain ⟨sql, transaction, index⟩ := h
  cases index <;> cases om <;>
    (simp [Hook.to_val, Hook.from_val, rlookup, requiredField, parseField,
      parseStr, parseBool]
     rfl)

theorem hooks_roundtrip (om : Bool) (hs : List Hook) :
    parseHooks (.vList (hs.map (Hook.to_val om))) = .ok hs := by
  simp only [parseHooks]
  induction hs with
  | nil => rfl
  | cons h rest ih =>
    simp_all [parseHookList, hook_roundtrip]
    rfl

theorem parseStrList_roundtrip (xs : List String) :
    parseStrList (xs.map RawVal.vStr) = .ok xs := by
  induction xs with
  | nil => rfl
  | cons x rest ih =>
    show Except.bind (parseStrList (rest.map RawVal.vStr))
      (fun ss => Except.ok (x :: ss)) = Except.ok (x :: rest)
    rw [ih]
    rfl

theorem tags_roundtrip (t : Tags) : Tags.from_val t.to_val = .ok t := by
  cases t with
  | strs xs =>
    show Except.bind (parseStrList (xs.map RawVal.vStr))
      (fun ss => Except.ok (Tags.strs ss)) = Except.ok (Tags.strs xs)
    rw [parseStrList_roundtrip]
    rfl
  | str s => rfl

theorem except_bind_ok {α β ε : Type} (a : α) (f : α → Except ε β) :
    Except.bind (Except.ok a) f = f a := rfl

theorem except_bind_ok_op {α β ε : Type} (a : α) (f : α → Except ε β) :
    (Except.ok a : Except ε α) >>= f = f a := rfl

theorem base_from_dict_round (om : Bool) (c : NodeConfig) (rest : RawMap) :
    NodeConfig.base_from_dict (NodeConfig.base_to_dict om c ++ rest) =
      .ok { c with _extra := [] } := by
  show (do
    let ph ← parseHooks (.vList (c.post_hook.map (Hook.to_val om)))
    let prh ← parseHooks (.vList (c.pre_hook.map (Hook.to_val om)))
    let tg ← Tags.from_val c.tags.to_val
    Except.ok (⟨c.enabled, c.materialized, c.persist_docs, ph, prh,
      c.vars, c.quoting, c.column_types, tg, []⟩ : NodeConfig))
    = .ok { c with _extra := [] }
  rw [show (Tags.to_val c.tags) = c.tags.to_val from rfl]
  simp only [hooks_roundtrip, tags_roundtrip, except_bind_ok, except_bind_ok_op]

theorem to_dict_eq_append (om : Bool) (c : NodeConfig)
    (hd : ∀ p ∈ c._extra, p.1 ∉ nodeConfigKeys)
    (hnd : (c._extra.map Prod.fst).Nodup) :
    NodeConfig.to_dict c om = NodeConfig.base_to_dict om c ++ c._extra := by
  rw [NodeConfig.to_dict, rupdate_append]
  · intro p hp
    rw [base_to_dict_keys]
    exact hd p hp
  · exact hnd

theorem to_dict_keys_of_extra_nil (c : NodeConfig) (hx : c._extra = []) :
    ((NodeConfig.to_dict c false).map Prod.fst) = nodeConfigKeys := by
  rw [NodeConfig.to_dict, hx]
  rfl

theorem base_filter_nil (om : Bool) (c : NodeConfig) :
    (NodeConfig.base_to_dict om c).filter
      (fun p => !(nodeConfigKeys.contains p.1)) = [] := rfl

theorem from_dict_to_dict (om : Bool) (c : NodeConfig)
    (hd : ∀ p ∈ c._extra, p.1 ∉ nodeConfigKeys)
    (hnd : (c._extra.map Prod.fst).Nodup) :
    NodeConfig.from_dict (NodeConfig.to_dict c om) = .ok c := by
  rw [to_dict_eq_append om c hd hnd]
  unfold NodeConfig.from_dict
  rw [base_from_dict_round om c c._extra]
  rw [except_bind_ok_op]
  show Except.ok
      { c with
        _extra :=
          (NodeConfig.base_to_dict om c ++ c._extra).filter
            (fun p =>
              !(((NodeConfig.to_dict ({ c with _extra := [] } : NodeConfig)
                  false).map Prod.fst).contains p.1)) }
    = Except.ok c
  rw [to_dict_keys_of_extra_nil ({ c with _extra := [] } : NodeConfig) rfl]
  rw [show ((NodeConfig.base_to_dict om c ++ c._extra).filter
      (fun p => !(nodeConfigKeys.contains p.1)))
    = (NodeConfig.base_to_dict om c).filter (fun p => !(nodeConfigKeys.contains p.1))
      ++ c._extra.filter (fun p => !(nodeConfigKeys.contains p.1))
    from List.filter_append _ _]
  rw [base_filter_nil om c, List.nil_append]
  have hfe : List.filter (fun p => !(nodeConfigKeys.contains p.1)) c._extra
      = c._extra :=
    List.filter_eq_self.mpr (by intro p hp; simpa using hd p hp)
  rw [hfe]

theorem except_bind_err {α β ε : Type} (e : ε) (f : α → Except ε β) :
    (Except.error e : Except ε α) >>= f = Except.error e := rfl

theorem except_bind_eq_ok {α β ε : Type} {x : Except ε α}
    {f : α → Except ε β} {b : β} :
    (x >>= f) = .ok b ↔ ∃ a, x = .ok a ∧ f a = .ok b := by
  cases x <;> simp [except_bind_ok_op, except_bind_err]

theorem base_from_dict_extra (m : RawMap) (self : NodeConfig)
    (h : NodeConfig.base_from_dict m = .ok self) : self._extra = [] := by
  unfold NodeConfig.base_from_dict at h
  simp only [except_bind_eq_ok] at h
  obtain ⟨a1, -, a2, -, a3, -, a4, -, a5, -, a6, -, a7, -, a8, -, a9, -, hfin⟩ := h
  injection hfin with h'
  subst h'
  rfl

theorem from_dict_extra (m : RawMap) (c : NodeConfig)
    (h : NodeConfig.from_dict m = .ok c) :
    c._extra = m.filter (fun p => !(nodeConfigKeys.contains p.1)) := by
  unfold NodeConfig.from_dict at h
  simp only [except_bind_eq_ok] at h
  obtain ⟨self, hself, hc⟩ := h
  have hx := base_from_dict_extra m self hself
  rw [to_dict_keys_of_extra_nil self hx] at hc
  injection hc with h'
  subst h'
  rfl

theorem from_dict_extra_props (m : RawMap) (c : NodeConfig)
    (hm : (m.map Prod.fst).Nodup)
    (h : NodeConfig.from_dict m = .ok c) :
    (∀ p ∈ c._extra, p.1 ∉ nodeConfigKeys) ∧ (c._extra.map Prod.fst).Nodup := by
  have hx := from_dict_extra m c h
  constructor
  · intro p hp
    rw [hx] at hp
    have hf := List.of_mem_filter hp
    simpa using hf
  · rw [hx]
    have hsub : ((m.filter (fun p => !(nodeConfigKeys.contains p.1))).map
        Prod.fst).Sublist (m.map Prod.fst) :=
      (List.filter_sublist m).map Prod.fst
    exact List.Nodup.sublist hsub hm

theorem check_from_dict_spec (m : RawMap) (uk ts : String)
    (nc : NodeConfig) (td : Option String)
    (hs : rlookup m "strategy" = some (.vStr "check"))
    (huk : rlookup m "unique_key" = some (.vStr uk))
    (hts : rlookup m "target_schema" = some (.vStr ts))
    (hnc : NodeConfig.base_from_dict m = .ok nc)
    (htd : parseField m "target_database" parseOptStr none = .ok td) :
    (rlookup m "check_cols" = none →
      CheckSnapshotConfig.from_dict m
        = .error "check_cols is a required property") ∧
    (rlookup m "check_cols" = some (.vStr "all") →
      ∃ cfg, CheckSnapshotConfig.from_dict m = .ok cfg ∧
        cfg.strategy = CheckStrategy.check ∧ cfg.check_cols = CheckCols.all ∧
        cfg.unique_key = uk ∧ cfg.target_schema = ts) := by
  constructor
  · intro hcc
    unfold CheckSnapshotConfig.from_dict CheckSnapshotConfig.base_from_dict
    rw [hnc, except_bind_ok_op]
    simp only [requiredField, huk, hts, hs, hcc, parseStr, htd,
      CheckSnapshotConfig.parseCheckStrategy, except_bind_ok_op, except_bind_err]
    rfl
  · intro hcc
    unfold CheckSnapshotConfig.from_dict CheckSnapshotConfig.base_from_dict
    rw [hnc, except_bind_ok_op]
    simp only [requiredField, huk, hts, hs, hcc, parseStr, htd,
      CheckSnapshotConfig.parseCheckStrategy, CheckSnapshotConfig.parseCheckCols,
      except_bind_ok_op, except_bind_err]
    exact ⟨_, rfl, trivial, rfl, rfl, rfl⟩

theorem char_toNat_ofNat (n : Nat) (h : n.isValidChar) :
    (Char.ofNat n).toNat = n := by
  simp [Char.ofNat, dif_pos h, Char.ofNatAux, Char.toNat, UInt32.toNat]

theorem toLower_eq_lower_iff (c p : Char)
    (hp : 97 ≤ p.toNat ∧ p.toNat ≤ 122) :
    c.toLower = p ↔ (c = p.toUpper ∨ c = p) := by
  have hup : (p.toUpper).toNat = p.toNat - 32 := by
    rw [Char.toUpper]
    rw [if_pos ⟨hp.1, hp.2⟩]
    exact char_toNat_ofNat _ (Or.inl (by omega))
  constructor
  · intro h
    rw [Char.toLower] at h
    by_cases hc : c.toNat ≥ 65 ∧ c.toNat ≤ 90
    · rw [if_pos hc] at h
      left
      have hv : (Char.ofNat (c.toNat + 32)).toNat = p.toNat := by rw [h]
      rw [char_toNat_ofNat _ (Or.inl (by omega))] at hv
      apply Char.ext
      apply UInt32.ext
      show c.toNat = (p.toUpper).toNat
      omega
    · rw [if_neg hc] at h
      right
      exact h
  · intro h
    rcases h with h | h
    · subst h
      rw [Char.toLower, if_pos (by omega)]
      rw [hup, Nat.sub_add_cancel (by omega)]
      exact Char.ofNat_toNat p
    · subst h
      rw [Char.toLower, if_neg (by omega)]

theorem matches_insensitive_iff (cand pat : List Char)
    (hp : ∀ p ∈ pat, 97 ≤ p.toNat ∧ p.toNat ≤ 122) :
    matches_insensitive cand pat = true ↔ cand.map Char.toLower = pat := by
  induction pat generalizing cand with
  | nil => cases cand <;> simp [matches_insensitive]
  | cons p ps ih =>
    cases cand with
    | nil => simp [matches_insensitive]
    | cons c cs =>
      have hp1 := hp p (by simp)
      have hps : ∀ q ∈ ps, 97 ≤ q.toNat ∧ q.toNat ≤ 122 :=
        fun q hq => hp q (by simp [hq])
      have hpl : p.toLower = p := by
        rw [Char.toLower, if_neg (by omega)]
      simp only [matches_insensitive, Bool.and_eq_true, Bool.or_eq_true,
        decide_eq_true_eq, List.map_cons, List.cons.injEq]
      rw [hpl, ih cs hps, ← toLower_eq_lower_iff c p hp1]

theorem severity_accepted_iff (s : String) :
    severity_accepted s = true ↔
      (lowerStr s = "warn" ∨ lowerStr s = "error") := by
  have hw := matches_insensitive_iff s.data "warn".data (by decide)
  have he := matches_insensitive_iff s.data "error".data (by decide)
  rw [severity_accepted, Bool.or_eq_true, hw, he]
  rw [show ((lowerStr s = "warn") = (s.data.map Char.toLower = "warn".data))
    from by rw [lowerStr, String.ext_iff]]
  rw [show ((lowerStr s = "error") = (s.data.map Char.toLower = "error".data))
    from by rw [lowerStr, String.ext_iff]]

/-- C1 (counterexample): at distinct concrete variant schemas the generated
snapshot `config` schema tests `strategy = "timestamp"` in its OUTERMOST
`if` (with the check variant in the `else`), not `strategy = "check"` as the
claim states: the Python loop pops the criteria list from the end. -/
theorem snapshot_schema_chain_order_counterexample :
    snapshot_config_schema (.vStr "CHECK") (.vStr "TIMESTAMP") (.vStr "GENERIC")
      = .vMap [("if", .vMap [("properties", .vMap [("strategy",
            .vMap [("enum", .vList [.vStr "timestamp"])])])]),
          ("then", .vStr "TIMESTAMP"),
          ("else", .vMap [("if", .vMap [("properties", .vMap [("strategy",
                .vMap [("enum", .vList [.vStr "check"])])])]),
              ("then", .vStr "CHECK"),
              ("else", .vStr "GENERIC")])] ∧
    snapshot_config_schema (.vStr "CHECK") (.vStr "TIMESTAMP") (.vStr "GENERIC")
      ≠ .vMap [("if", .vMap [("properties", .vMap [("strategy",
            .vMap [("enum", .vList [.vStr "check"])])])]),
          ("then", .vStr "CHECK"),
          ("else", .vMap [("if", .vMap [("properties", .vMap [("strategy",
                .vMap [("enum", .vList [.vStr "timestamp"])])])]),
              ("then", .vStr "TIMESTAMP"),
              ("else", .vStr "GENERIC")])] := by
  constructor
  · rfl
  · intro h
    rw [show snapshot_config_schema (.vStr "CHECK") (.vStr "TIMESTAMP")
        (.vStr "GENERIC")
      = .vMap [("if", .vMap [("properties", .vMap [("strategy",
            .vMap [("enum", .vList [.vStr "timestamp"])])])]),
          ("then", .vStr "TIMESTAMP"),
          ("else", .vMap [("if", .vMap [("properties", .vMap [("strategy",
                .vMap [("enum", .vList [.vStr "check"])])])]),
              ("then", .vStr "CHECK"),
              ("else", .vStr "GENERIC")])] from rfl] at h
    simp at h

/-- C1 (amended): the generated snapshot `config` validation schema is the
conditional chain nested in the order timestamp → check → generic: the
outermost `if` compares `strategy` to `"timestamp"` (timestamp-variant schema
as its `then`), its `else` compares `strategy` to `"check"` (check-variant
schema as its `then`), and the innermost `else` is the generic-variant
schema. -/
theorem snapshot_schema_chain_order (c t g : RawVal) :
    snapshot_config_schema c t g
      = .vMap [("if", .vMap [("properties", .vMap [("strategy",
            .vMap [("enum", .vList [.vStr "timestamp"])])])]),
          ("then", t),
          ("else", .vMap [("if", .vMap [("properties", .vMap [("strategy",
                .vMap [("enum", .vList [.vStr "check"])])])]),
              ("then", c),
              ("else", g)])] := rfl

/-- C2 (counterexample): for the valid raw map with only the pair
`"post-hook" ↦ [ ⟨sql "x"⟩ ]`, parsing succeeds but serialization re-emits
the hook in canonical form (`transaction` made explicit), so the original
key-value pair does NOT appear in `serialize(parse(m))`: `⊇` fails. -/
theorem from_dict_roundtrip_superset_counterexample :
    NodeConfig.from_dict [("post-hook", .vList [.vMap [("sql", .vStr "x")]])]
      = .ok { post_hook := [⟨"x", true, none⟩] } ∧
    ("post-hook", RawVal.vList [.vMap [("sql", .vStr "x")]])
      ∉ NodeConfig.to_dict { post_hook := [⟨"x", true, none⟩] } true := by
  constructor
  · rfl
  · intro h
    rw [show NodeConfig.to_dict { post_hook := [⟨"x", true, none⟩] } true
      = [("enabled", .vBool true), ("materialized", .vStr "view"),
         ("persist_docs", .vMap []),
         ("post-hook", .vList [.vMap [("sql", .vStr "x"),
            ("transaction", .vBool true)]]),
         ("pre-hook", .vList []), ("vars", .vMap []), ("quoting", .vMap []),
         ("column_types", .vMap []), ("tags", .vList [])] from rfl] at h
    simp at h

/-- C2 (amended): for every valid raw config map `m` with unique keys, every
pair of `m` whose key is not a declared serialized field name appears in
`serialize(parse(m))` (declared-field pairs may be re-emitted in canonical
form instead), and re-parsing the serialized form yields a record equal to
`parse(m)` in both declared fields and the opaque side-map. -/
theorem from_dict_to_dict_roundtrip (m : RawMap) (c : NodeConfig)
    (hm : (m.map Prod.fst).Nodup)
    (h : NodeConfig.from_dict m = .ok c) :
    (∀ k v, (k, v) ∈ m → k ∉ nodeConfigKeys →
      (k, v) ∈ NodeConfig.to_dict c true) ∧
    NodeConfig.from_dict (NodeConfig.to_dict c true) = .ok c := by
  obtain ⟨hd, hnd⟩ := from_dict_extra_props m c hm h
  constructor
  · intro k v hkv hk
    rw [to_dict_eq_append true c hd hnd]
    apply List.mem_append_right
    rw [from_dict_extra m c h]
    exact List.mem_filter.mpr ⟨hkv, by simpa using hk⟩
  · exact from_dict_to_dict true c hd hnd

/-- C2 (witness): the round-trip theorem applied to the concrete map
`[custom_opt ↦ "x"]`. -/
theorem from_dict_to_dict_roundtrip_witness :
    ("custom_opt", RawVal.vStr "x")
      ∈ NodeConfig.to_dict { _extra := [("custom_opt", .vStr "x")] } true ∧
    NodeConfig.from_dict
        (NodeConfig.to_dict { _extra := [("custom_opt", .vStr "x")] } true)
      = .ok { _extra := [("custom_opt", .vStr "x")] } := by
  have hthm := from_dict_to_dict_roundtrip [("custom_opt", .vStr "x")]
    { _extra := [("custom_opt", .vStr "x")] } (by simp) rfl
  exact ⟨hthm.1 "custom_opt" (.vStr "x") (by simp) (by decide), hthm.2⟩

/-- C3 (counterexample): a record whose side-map holds `materialized ↦
"table"` while the declared field is `"view"` serializes with the SIDE-MAP
value: `to_dict` runs `data.update(self._extra)`, so on a key collision the
side-map entry overwrites the declared field, not the other way around. -/
theorem to_dict_collision_counterexample :
    rlookup (NodeConfig.to_dict
        { _extra := [("materialized", .vStr "table")] } true) "materialized"
      = some (.vStr "table") ∧
    ({ _extra := [("materialized", .vStr "table")] } : NodeConfig).materialized
      = "view" ∧
    rlookup (NodeConfig.to_dict
        { _extra := [("materialized", .vStr "table")] } true) "materialized"
      ≠ some (.vStr "view") := by
  refine ⟨rfl, rfl, ?_⟩
  intro h
  rw [show rlookup (NodeConfig.to_dict
      { _extra := [("materialized", .vStr "table")] } true) "materialized"
    = some (.vStr "table") from rfl] at h
  simp at h

/-- C3 (amended): when a side-map key collides with a declared field's
serialized key, the SIDE-MAP value appears in the serialized output
(side-map entries always win on key collision, because `to_dict` applies
`data.update(self._extra)` last). -/
theorem to_dict_side_map_wins (c : NodeConfig) (om : Bool) (k : String)
    (v : RawVal)
    (hnd : (c._extra.map Prod.fst).Nodup)
    (h : rlookup c._extra k = some v) :
    rlookup (NodeConfig.to_dict c om) k = some v := by
  rw [NodeConfig.to_dict]
  exact rlookup_rupdate_mem c._extra (NodeConfig.base_to_dict om c) k v hnd h

/-- C3 (witness): the side-map-wins theorem at the concrete colliding
record. -/
theorem to_dict_side_map_wins_witness :
    rlookup (NodeConfig.to_dict
        { _extra := [("materialized", .vStr "table")] } true) "materialized"
      = some (.vStr "table") :=
  to_dict_side_map_wins { _extra := [("materialized", .vStr "table")] } true
    "materialized" (.vStr "table") (by simp) rfl

/-- C4 (confirmed): applying a patch changes exactly `patch_path`,
`description`, `columns` and `docrefs` (to the patch record's
`original_file_path`, `description`, `columns` and `docrefs`); every other
field of the node is unchanged. -/
theorem patch_frame (n : ParsedNode) (p : ParsedNodePatch) :
    (n.patch p).patch_path = some p.original_file_path ∧
    (n.patch p).description = p.description ∧
    (n.patch p).columns = p.columns ∧
    (n.patch p).docrefs = p.docrefs ∧
    (n.patch p).name = n.name ∧
    (n.patch p).package_name = n.package_name ∧
    (n.patch p).root_path = n.root_path ∧
    (n.patch p).path = n.path ∧
    (n.patch p).original_file_path = n.original_file_path ∧
    (n.patch p).raw_sql = n.raw_sql ∧
    (n.patch p).unique_id = n.unique_id ∧
    (n.patch p).fqn = n.fqn ∧
    (n.patch p).database = n.database ∧
    (n.patch p).schema = n.schema ∧
    (n.patch p).«alias» = n.«alias» ∧
    (n.patch p).config = n.config ∧
    (n.patch p).tags = n.tags ∧
    (n.patch p).refs = n.refs ∧
    (n.patch p).sources = n.sources ∧
    (n.patch p).depends_on = n.depends_on ∧
    (n.patch p).build_path = n.build_path :=
  ⟨rfl, rfl, rfl, rfl, rfl, rfl, rfl, rfl, rfl, rfl, rfl, rfl, rfl, rfl, rfl,
   rfl, rfl, rfl, rfl, rfl, rfl⟩

/-- C5 (witness): the check-variant theorem at concrete maps: the map with
`strategy = "check"`, `unique_key`, `target_schema` and no `check_cols`
fails; adding `check_cols = "all"` makes it parse as the check variant. -/
theorem check_from_dict_spec_witness :
    CheckSnapshotConfig.from_dict
        [("strategy", .vStr "check"), ("unique_key", .vStr "id"),
         ("target_schema", .vStr "snapshots")]
      = .error "check_cols is a required property" ∧
    (∃ cfg, CheckSnapshotConfig.from_dict
        [("strategy", .vStr "check"), ("unique_key", .vStr "id"),
         ("target_schema", .vStr "snapshots"), ("check_cols", .vStr "all")]
      = .ok cfg ∧ cfg.strategy = CheckStrategy.check ∧
        cfg.check_cols = CheckCols.all ∧ cfg.unique_key = "id" ∧
        cfg.target_schema = "snapshots") :=
  ⟨(check_from_dict_spec
      [("strategy", .vStr "check"), ("unique_key", .vStr "id"),
       ("target_schema", .vStr "snapshots")]
      "id" "snapshots" {} none rfl rfl rfl rfl rfl).1 rfl,
   (check_from_dict_spec
      [("strategy", .vStr "check"), ("unique_key", .vStr "id"),
       ("target_schema", .vStr "snapshots"), ("check_cols", .vStr "all")]
      "id" "snapshots" {} none rfl rfl rfl rfl rfl).2 rfl⟩

/-- C6 (counterexample): a record whose side-map binds the declared key
`enabled` to a non-boolean makes `replace(r, {})` fail validation on
re-parse instead of returning `r`: the claim does not hold for every record
with a populated side-map. -/
theorem replace_empty_counterexample :
    NodeConfig.replace { _extra := [("enabled", .vStr "nope")] } []
      = .error "expected a boolean" ∧
    NodeConfig.replace { _extra := [("enabled", .vStr "nope")] } []
      ≠ .ok { _extra := [("enabled", .vStr "nope")] } := by
  refine ⟨rfl, ?_⟩
  intro h
  rw [show NodeConfig.replace { _extra := [("enabled", .vStr "nope")] } []
    = .error "expected a boolean" from rfl] at h
  simp at h

/-- C6 (amended): for every config record whose side-map keys are unique and
disjoint from the declared serialized field names — as holds for every
record produced by `from_dict` — `replace(r, {})` returns a record equal to
`r` in all declared fields and in the opaque side-map. -/
theorem replace_empty_id (c : NodeConfig)
    (hd : ∀ p ∈ c._extra, p.1 ∉ nodeConfigKeys)
    (hnd : (c._extra.map Prod.fst).Nodup) :
    NodeConfig.replace c [] = .ok c := by
  rw [NodeConfig.replace]
  rw [show rupdate (NodeConfig.to_dict c false) []
    = NodeConfig.to_dict c false from rfl]
  exact from_dict_to_dict false c hd hnd

/-- C6 (witness): replace-with-no-overrides at a concrete record carrying a
captured unknown field. -/
theorem replace_empty_id_witness :
    NodeConfig.replace { _extra := [("custom_opt", .vStr "x")] } []
      = .ok { _extra := [("custom_opt", .vStr "x")] } :=
  replace_empty_id { _extra := [("custom_opt", .vStr "x")] }
    (by
      intro p hp
      rw [List.mem_singleton] at hp
      subst hp
      decide)
    (by simp)

/-- C7 (confirmed): `PARSED_TYPES` maps exactly the ten resource-type tags to
their variant constructors, with `Operation` mapped to the hook node type,
and dispatch on any tag outside the ten fails with `UnknownNodeTypeError`. -/
theorem parsed_types_dispatch :
    PARSED_TYPES.map Prod.fst
      = ["Analysis", "Documentation", "Macro", "Model", "Operation",
         "RPCCall", "Seed", "Snapshot", "Source", "Test"] ∧
    dispatch_parsed_type "Analysis" = .ok .ParsedAnalysisNode ∧
    dispatch_parsed_type "Documentation" = .ok .ParsedDocumentation ∧
    dispatch_parsed_type "Macro" = .ok .ParsedMacroNode ∧
    dispatch_parsed_type "Model" = .ok .ParsedModelNode ∧
    dispatch_parsed_type "Operation" = .ok .ParsedHookNode ∧
    dispatch_parsed_type "RPCCall" = .ok .ParsedRPCNode ∧
    dispatch_parsed_type "Seed" = .ok .ParsedSeedNode ∧
    dispatch_parsed_type "Snapshot" = .ok .ParsedSnapshotNode ∧
    dispatch_parsed_type "Source" = .ok .ParsedSourceDefinitionNode ∧
    dispatch_parsed_type "Test" = .ok .ParsedTestNode ∧
    (∀ tag : String, tag ∉ PARSED_TYPES.map Prod.fst →
      dispatch_parsed_type tag = .error (.unknownNodeType tag)) := by
  refine ⟨rfl, rfl, rfl, rfl, rfl, rfl, rfl, rfl, rfl, rfl, rfl, ?_⟩
  intro tag h
  rw [show PARSED_TYPES.map Prod.fst
    = ["Analysis", "Documentation", "Macro", "Model", "Operation",
       "RPCCall", "Seed", "Snapshot", "Source", "Test"] from rfl] at h
  simp only [List.mem_cons, List.not_mem_nil, or_false, not_or] at h
  obtain ⟨h1, h2, h3, h4, h5, h6, h7, h8, h9, h10⟩ := h
  simp only [dispatch_parsed_type, dispatch_parsed_type.go, PARSED_TYPES]
  rw [if_neg (fun he => h1 he.symm), if_neg (fun he => h2 he.symm),
    if_neg (fun he => h3 he.symm), if_neg (fun he => h4 he.symm),
    if_neg (fun he => h5 he.symm), if_neg (fun he => h6 he.symm),
    if_neg (fun he => h7 he.symm), if_neg (fun he => h8 he.symm),
    if_neg (fun he => h9 he.symm), if_neg (fun he => h10 he.symm)]

/-- C7 (witness): dispatch on the unknown tag `"widget"` fails with
`UnknownNodeTypeError`. -/
theorem parsed_types_dispatch_witness :
    dispatch_parsed_type "widget" = .error (.unknownNodeType "widget") :=
  parsed_types_dispatch.2.2.2.2.2.2.2.2.2.2.2 "widget" (by decide)

/-- C8 (confirmed): a Source node's `refs`, `sources` and `tags` accessors
always yield empty sequences, and `has_freshness` is true iff the freshness
threshold is set and `loaded_at_field` is non-null. -/
theorem source_accessors (s : ParsedSourceDefinition) :
    s.refs = [] ∧ s.sources = [] ∧ s.tags = [] ∧
    (s.has_freshness = true ↔
      (s.freshness.isSet = true ∧ s.loaded_at_field ≠ none)) := by
  refine ⟨rfl, rfl, rfl, ?_⟩
  rw [ParsedSourceDefinition.has_freshness, Bool.and_eq_true,
    Option.isSome_iff_ne_none]

/-- C9 (counterexample): `"WARN"` is accepted (acceptance is
case-insensitive) but the stored value is `"WARN"` itself — not the
normalized form `"warn"`: `NewPatternType` only validates the pattern, it
never rewrites the value. -/
theorem severity_store_counterexample :
    Severity.store "WARN" = some "WARN" ∧
    lowerStr "WARN" = "warn" ∧
    ("WARN" : String) ≠ "warn" ∧ ("WARN" : String) ≠ "error" := by
  refine ⟨by decide, by decide, by decide, by decide⟩

/-- C9 (amended): a string is accepted as a Severity value iff its lowercase
is `"warn"` or `"error"` (acceptance is case-insensitive), and an accepted
value is stored verbatim (as given), not normalized. -/
theorem severity_spec (s : String) :
    (severity_accepted s = true ↔
      (lowerStr s = "warn" ∨ lowerStr s = "error")) ∧
    (severity_accepted s = true → Severity.store s = some s) := by
  refine ⟨severity_accepted_iff s, fun h => ?_⟩
  rw [Severity.store, if_pos h]

/-- C9 (witness): the severity theorem at `"WARN"`. -/
theorem severity_spec_witness :
    Severity.store "WARN" = some "WARN" :=
  (severity_spec "WARN").2 (by decide)

/-- C10 (confirmed): a `NodeConfig` built with no arguments carries the
compiled-in defaults: `enabled = true`, `materialized = "view"`, and empty
`persist_docs`, `post_hook`, `pre_hook`, `vars`, `quoting`, `column_types`,
`tags` and opaque side-map. -/
theorem nodeconfig_default_values :
    ({} : NodeConfig).enabled = true ∧
    ({} : NodeConfig).materialized = "view" ∧
    ({} : NodeConfig).persist_docs = [] ∧
    ({} : NodeConfig).post_hook = [] ∧
    ({} : NodeConfig).pre_hook = [] ∧
    ({} : NodeConfig).vars = [] ∧
    ({} : NodeConfig).quoting = [] ∧
    ({} : NodeConfig).column_types = [] ∧
    ({} : NodeConfig).tags = Tags.strs [] ∧
    ({} : NodeConfig)._extra = [] :=
  ⟨rfl, rfl, rfl, rfl, rfl, rfl, rfl, rfl, rfl, rfl⟩

end DbtParsed
